import Mathlib

/-
  Verification of the entity-registry / delta-synchronization engine of
  ThreeNetwork (src/js/networks/RemoteSync.js), as a shallow embedding.

  JS objects used as string-keyed insertion-ordered maps are embedded as
  association lists (`lookupA` / `setA` / `delA`).  Live mutable objects
  (THREE.Object3D instances) are kept in a heap keyed by their uuid, so
  reference aliasing between the various registries is modelled faithfully.
  The channel-value type `V` and the float32 round-trip `ensureFloat32` are
  parameters: every theorem holds for an arbitrary value type and rounding
  function (idempotence of the rounding is assumed exactly where the
  argument needs it, and real float32 rounding is idempotent).
-/

namespace ThreeNetwork

/-! ### Association lists: JS string-keyed object semantics -/

def lookupA {α : Type} : List (String × α) → String → Option α
  | [], _ => none
  | p :: rest, k => if p.1 = k then some p.2 else lookupA rest k

def setA {α : Type} : List (String × α) → String → α → List (String × α)
  | [], k, v => [(k, v)]
  | p :: rest, k, v => if p.1 = k then (k, v) :: rest else p :: setA rest k v

def delA {α : Type} : List (String × α) → String → List (String × α)
  | [], _ => []
  | p :: rest, k => if p.1 = k then rest else p :: delA rest k

/-! ### Data model

`ObjData` is the live replicated state of a THREE.Object3D: its 16 matrix
elements and (optionally) its morphTargetInfluences.  `TComponent` is the
per-entity transfer component (the Snapshot) created by
`createTransferComponent`.  `RSState` gathers the registries of a
`THREE.RemoteSync` instance; live objects sit in `heap`, keyed by uuid, and
the registries store uuids, which models JS reference aliasing. -/

structure ObjData (V : Type) where
  matrix : List V
  morphs : Option (List V)
deriving DecidableEq

structure TComponent (V : Type) where
  id : String
  matrix : List V
  morphTargetInfluences : List V
  sid : Option String
deriving DecidableEq

inductive Message (V Info : Type) where
  | syncM (id : String) (did : Option String) (list : List (TComponent V))
  | addM (id : String) (did : Option String) (list : List (String × Option Info))
  | removeM (id : String) (did : Option String) (list : List String)
deriving DecidableEq

structure RSState (V Info : Type) where
  id : String
  connections : Nat
  heap : List (String × ObjData V)
  localObjects : List String
  localObjectTable : List String
  localObjectInfos : List (String × Info)
  remoteObjectTable : List (String × List (String × String))
  sharedObjects : List String
  sharedObjectTable : List (String × String)
  transferComponents : List (String × TComponent V)
deriving DecidableEq

section Ops

variable {V : Type} [DecidableEq V] [Inhabited V] {Info : Type}

/-! ### Channel-level operations

`anyDiff f32 c o` embeds the comparison loops of `checkUpdate`: it walks the
component array, comparing `ensureFloat32` images; if the component array is
longer than the live array, JS compares against `ensureFloat32(undefined) =
NaN`, which compares unequal to everything, hence the `true` in that case.
`serializeList f32 c o` embeds the copy loops of `serialize` (over the
component array's length); the out-of-range case (JS would store NaN) is
modelled with `default` and is excluded by length hypotheses wherever a
theorem depends on it. -/

def anyDiff (f32 : V → V) : List V → List V → Bool
  | [], _ => false
  | _ :: _, [] => true
  | a :: as, b :: bs => if f32 a = f32 b then anyDiff f32 as bs else true

def serializeList (f32 : V → V) : List V → List V → List V
  | [], _ => []
  | _ :: as, b :: bs => f32 b :: serializeList f32 as bs
  | _ :: as, [] => f32 (default : V) :: serializeList f32 as []

/-- `THREE.Matrix4.prototype.fromArray`: the matrix always has exactly 16
elements, taken from the front of the source array. -/
def matrix4FromArray (l : List V) : List V :=
  (List.range 16).map fun i => l.getD i (default : V)

/-- In-place prefix copy `array2[i] = array[i]` for `i` below the length of
`src`, as done by the morph loop of `deserialize` (JS arrays auto-extend). -/
def overwriteFront (dst src : List V) : List V :=
  src ++ dst.drop src.length

/-- `createTransferComponent(object)` (RemoteSync.js line 874). -/
def createTransferComponent (f32 : V → V) (uuid : String) (o : ObjData V) : TComponent V :=
  { id := uuid
    matrix := o.matrix.map f32
    morphTargetInfluences :=
      match o.morphs with
      | some m => m.map f32
      | none => []
    sid := none }

/-- `checkUpdate(object)` on a component/live-object pair (line 591). -/
def checkUpdateC (f32 : V → V) (c : TComponent V) (o : ObjData V) : Bool :=
  anyDiff f32 c.matrix o.matrix ||
    (match o.morphs with
     | some m => anyDiff f32 c.morphTargetInfluences m
     | none => false)

/-- `serialize(object)` on a component/live-object pair (line 627): writes the
float32 image of the live state into the component, in place. -/
def serializeC (f32 : V → V) (c : TComponent V) (o : ObjData V) : TComponent V :=
  { c with
    matrix := serializeList f32 c.matrix o.matrix
    morphTargetInfluences :=
      match o.morphs with
      | some m => serializeList f32 c.morphTargetInfluences m
      | none => c.morphTargetInfluences }

/-- `deserialize(object, component)` (line 662): overwrites the live matrix
from the record and copies the record's morph values (only when the object
has morphs and the record carries at least one). -/
def deserializeO (o : ObjData V) (r : TComponent V) : ObjData V :=
  { matrix := matrix4FromArray r.matrix
    morphs :=
      match o.morphs with
      | some m =>
          if r.morphTargetInfluences.length > 0 then
            some (overwriteFront m r.morphTargetInfluences)
          else some m
      | none => none }

/-! ### State-level operations -/

/-- `checkUpdate` looked up through the registries; `none` models the JS
TypeError raised when the object has no transfer component. -/
def checkUpdateS (f32 : V → V) (s : RSState V Info) (u : String) : Option Bool :=
  match lookupA s.transferComponents u, lookupA s.heap u with
  | some c, some o => some (checkUpdateC f32 c o)
  | _, _ => none

/-- `serialize` looked up through the registries, updating the stored
component in place and returning it (it is what `sync` pushes). -/
def serializeS (f32 : V → V) (s : RSState V Info) (u : String) :
    Option (RSState V Info × TComponent V) :=
  match lookupA s.transferComponents u, lookupA s.heap u with
  | some c, some o =>
      let c' := serializeC f32 c o
      some ({ s with transferComponents := setA s.transferComponents u c' }, c')
  | _, _ => none

/-- `addLocalObject(object, info)` (line 167).  Returns the new state and the
optional ADD broadcast (`broadcastAddObjectRequest`, issued only when a
connection exists). -/
def addLocalObject (f32 : V → V) (s : RSState V Info) (u : String) (o : ObjData V)
    (info : Info) : RSState V Info × Option (Message V Info) :=
  if u ∈ s.localObjectTable then (s, none)
  else
    ({ s with
        heap := setA s.heap u o
        localObjectTable := s.localObjectTable ++ [u]
        localObjects := s.localObjects ++ [u]
        localObjectInfos := setA s.localObjectInfos u info
        transferComponents := setA s.transferComponents u (createTransferComponent f32 u o) },
     if 0 < s.connections then some (Message.addM s.id none [(u, some info)]) else none)

/-- `removeObjectFromArray(array, object)` (line 845), embedded exactly as the
source loop behaves: it retains the elements *equal* to `object` (a stable
filter of the matches) instead of dropping them. -/
def removeObjectFromArray {A : Type} [DecidableEq A] (array : List A) (object : A) : List A :=
  array.filter fun x => decide (x = object)

/-- `removeLocalObject(object)` (line 189).  Returns the new state and the
optional REMOVE broadcast. -/
def removeLocalObject (s : RSState V Info) (u : String) :
    RSState V Info × Option (Message V Info) :=
  if u ∈ s.localObjectTable then
    ({ s with
        localObjectTable := s.localObjectTable.filter fun x => decide (x ≠ u)
        localObjectInfos := delA s.localObjectInfos u
        transferComponents := delA s.transferComponents u
        localObjects := removeObjectFromArray s.localObjects u },
     if 0 < s.connections then some (Message.removeM s.id none [u]) else none)
  else (s, none)

/-- `addRemoteObject(destId, objectId, object)` (line 212); the mirror object
is identified by its uuid. -/
def addRemoteObject (s : RSState V Info) (destId objectId mirror : String) :
    RSState V Info :=
  let table :=
    match lookupA s.remoteObjectTable destId with
    | some _ => s.remoteObjectTable
    | none => setA s.remoteObjectTable destId []
  let objects := (lookupA table destId).getD []
  if (lookupA objects objectId).isSome then { s with remoteObjectTable := table }
  else { s with remoteObjectTable := setA table destId (setA objects objectId mirror) }

/-- `addSharedObject(object, id)` (line 234).  The Bool is the warning-level
signal (`console.warn`) raised on a duplicate shared id. -/
def addSharedObject (f32 : V → V) (s : RSState V Info) (u : String) (o : ObjData V)
    (sid : String) : RSState V Info × Bool :=
  if (lookupA s.sharedObjectTable sid).isSome then (s, true)
  else
    ({ s with
        heap := setA s.heap u o
        sharedObjectTable := setA s.sharedObjectTable sid u
        sharedObjects := s.sharedObjects ++ [u]
        transferComponents := setA s.transferComponents u
          { createTransferComponent f32 u o with sid := some sid } },
     false)

/-! ### Per-tick synchronization and the connect handler -/

/-- The scan loop of `sync(force, onlyLocal)` (line 275) over a list of
registered uuids: an entity is serialized and appended to the record list
when `force` is set or `checkUpdate` reports a difference.  `none` models the
JS exception raised when a scanned object lacks a transfer component. -/
def syncLoop (f32 : V → V) (force : Bool) :
    RSState V Info → List String → Option (RSState V Info × List (TComponent V))
  | s, [] => some (s, [])
  | s, u :: rest =>
      match (if force then some true else checkUpdateS f32 s u) with
      | none => none
      | some go =>
          if go then
            match serializeS f32 s u with
            | none => none
            | some sc =>
                match syncLoop f32 force sc.1 rest with
                | none => none
                | some res => some (res.1, sc.2 :: res.2)
          else syncLoop f32 force s rest

/-- `sync(force, onlyLocal)` (line 275): scans local objects, then (unless
`onlyLocal`) shared objects, and broadcasts one SYNC message iff the record
list is non-empty. -/
def sync (f32 : V → V) (s : RSState V Info) (force onlyLocal : Bool) :
    Option (RSState V Info × Option (Message V Info)) :=
  match syncLoop f32 force s (s.localObjects ++ if onlyLocal then [] else s.sharedObjects) with
  | none => none
  | some res =>
      some (res.1,
        if 0 < res.2.length then some (Message.syncM s.id none res.2) else none)

/-- `sendAddObjectsRequest(destId)` (line 698): one unicast ADD message
listing every currently-registered local entity in registration order. -/
def sendAddObjectsRequest (s : RSState V Info) (destId : String) : Message V Info :=
  Message.addM s.id (some destId)
    (s.localObjects.map fun u => (u, lookupA s.localObjectInfos u))

/-- The client 'connect' handler (line 376): unicasts the local catalog via
`sendAddObjectsRequest`, then performs a forced sync with
`onlyLocal = !fromRemote`.  Returns the new state and the outgoing messages
in emission order. -/
def onConnect (f32 : V → V) (s : RSState V Info) (peerId : String) (fromRemote : Bool) :
    Option (RSState V Info × List (Message V Info)) :=
  match sync f32 s true (!fromRemote) with
  | none => none
  | some res => some (res.1, sendAddObjectsRequest s peerId :: res.2.toList)

/-! ### Incoming message handlers -/

/-- One iteration of the `handleSyncRequest` loop (line 474): resolve the
record's target (shared registry when the record carries a shared id, else
the sending peer's remote registry), skip silently when unresolvable,
otherwise deserialize into the live object and, for shared records, also
re-serialize the Snapshot. -/
def applySyncRecord (f32 : V → V) (s : RSState V Info) (destId : String)
    (r : TComponent V) : Option (RSState V Info) :=
  match r.sid with
  | some sharedId =>
      match lookupA s.sharedObjectTable sharedId with
      | none => some s
      | some u =>
          match lookupA s.heap u with
          | none => none
          | some o =>
              let s1 := { s with heap := setA s.heap u (deserializeO o r) }
              match serializeS f32 s1 u with
              | none => none
              | some sc => some sc.1
  | none =>
      match lookupA s.remoteObjectTable destId with
      | none => some s
      | some objs =>
          match lookupA objs r.id with
          | none => some s
          | some mu =>
              match lookupA s.heap mu with
              | none => none
              | some o => some { s with heap := setA s.heap mu (deserializeO o r) }

/-- `handleSyncRequest(component)` over the whole record list. -/
def handleSyncList (f32 : V → V) (destId : String) :
    RSState V Info → List (TComponent V) → Option (RSState V Info)
  | s, [] => some s
  | s, r :: rest =>
      match applySyncRecord f32 s destId r with
      | none => none
      | some s' => handleSyncList f32 destId s' rest

/-- A SYNC record none of whose resolution paths succeeds: unknown shared id,
sender without a remote table, or entity id absent from that table. -/
def unresolvableSyncRecord (s : RSState V Info) (destId : String) (r : TComponent V) : Bool :=
  match r.sid with
  | some sharedId => (lookupA s.sharedObjectTable sharedId).isNone
  | none =>
      match lookupA s.remoteObjectTable destId with
      | none => true
      | some objs => (lookupA objs r.id).isNone

def objestsErrorMsg : String := ("ReferenceError: objests is not defined")

/-- `handleRemoveRequest(component)` (line 539), embedded exactly as written:
when the sender has a remote table and the record list is non-empty, the
first loop iteration evaluates the undefined identifier `objests` (and would
next call the nonexistent method `removeRemoveObject`), so the handler
throws instead of processing any record. -/
def handleRemoveRequest (s : RSState V Info) (srcId : String) (records : List String) :
    Except String (RSState V Info) :=
  match lookupA s.remoteObjectTable srcId with
  | none => Except.ok s
  | some _ =>
      match records with
      | [] => Except.ok s
      | _ :: _ => Except.error objestsErrorMsg

/-- `removeRemoteObject(destId, objectId)` (line 568): deletes the entry and
fires the application's 'remove' listeners once; the returned list holds the
`(peer_id, entity_id, mirror)` notifications it emits. -/
def removeRemoteObject (s : RSState V Info) (destId objectId : String) :
    RSState V Info × List (String × String × String) :=
  match lookupA s.remoteObjectTable destId with
  | none => (s, [])
  | some objects =>
      match lookupA objects objectId with
      | none => (s, [])
      | some mirror =>
          ({ s with remoteObjectTable := setA s.remoteObjectTable destId (delA objects objectId) },
           [(destId, objectId, mirror)])

/-- The key loop of the client 'disconnect' handler (line 391). -/
def disconnectLoop (id : String) :
    RSState V Info → List String → RSState V Info × List (String × String × String)
  | s, [] => (s, [])
  | s, k :: ks =>
      let q := removeRemoteObject s id k
      let r := disconnectLoop id q.1 ks
      (r.1, q.2 ++ r.2)

/-- The client 'disconnect' handler (line 391): one `removeRemoteObject` per
snapshotted key of the disconnected peer's remote table, then deletion of the
table itself.  The returned list holds the emitted 'remove' notifications. -/
def handleDisconnect (s : RSState V Info) (id : String) :
    RSState V Info × List (String × String × String) :=
  match lookupA s.remoteObjectTable id with
  | none => (s, [])
  | some objects =>
      let p := disconnectLoop id s (objects.map Prod.fst)
      ({ p.1 with remoteObjectTable := delA p.1.remoteObjectTable id }, p.2)

/-! ### Well-formedness of a registry state -/

/-- Every uuid in the given list has a transfer component and a live object. -/
def compsOK (s : RSState V Info) (uuids : List String) : Prop :=
  ∀ u ∈ uuids, (lookupA s.transferComponents u).isSome = true ∧
    (lookupA s.heap u).isSome = true

/-- Every stored transfer component records the uuid it is keyed under (true
by construction via `createTransferComponent`). -/
def idsOK (s : RSState V Info) : Prop :=
  ∀ p ∈ s.transferComponents, (p.2).id = p.1

/-- The Snapshot's morph array is no longer than the live object's (the spec's
structural-consistency invariant; `createTransferComponent` makes them equal). -/
def morphLenOK (c : TComponent V) (o : ObjData V) : Bool :=
  match o.morphs with
  | none => true
  | some m => c.morphTargetInfluences.length ≤ m.length

/-- All channels of the live object agree with the Snapshot at 32-bit float
precision (the claims' notion of an unchanged entity). -/
def unchangedF32 (f32 : V → V) (c : TComponent V) (o : ObjData V) : Prop :=
  c.matrix.map f32 = o.matrix.map f32 ∧
    ∀ m, o.morphs = some m → c.morphTargetInfluences.map f32 = m.map f32

instance (s : RSState V Info) (uuids : List String) : Decidable (compsOK s uuids) := by
  unfold compsOK
  exact inferInstance

instance (s : RSState V Info) : Decidable (idsOK s) := by
  unfold idsOK
  exact inferInstance

end Ops


/-! ### Concrete instantiation used by witnesses and counterexamples

Channel values are `Int` and `ensureFloat32` is instantiated with the
identity (any idempotent rounding satisfies the theorems' hypotheses). -/

def f32id : Int → Int := fun x => x

def emptyRS : RSState Int String :=
  { id := ("me")
    connections := 1
    heap := []
    localObjects := []
    localObjectTable := []
    localObjectInfos := []
    remoteObjectTable := []
    sharedObjects := []
    sharedObjectTable := []
    transferComponents := [] }

def objA : ObjData Int := { matrix := [1], morphs := none }

def objB : ObjData Int := { matrix := [2], morphs := none }

def shObj : ObjData Int := { matrix := [3], morphs := some [7] }

/-- A peer with one shared object and no local objects. -/
def c1S : RSState Int String := (addSharedObject f32id emptyRS ("su") shObj ("sh")).1

/-- A peer mirroring one remote object of peer p. -/
def c2S : RSState Int String := addRemoteObject emptyRS ("p") ("x") ("mx")

/-- A peer with two registered local objects a and b. -/
def c3S : RSState Int String :=
  (addLocalObject f32id (addLocalObject f32id emptyRS ("a") objA ("ia")).1 ("b") objB ("ib")).1

/-- A peer mirroring two remote objects of peer p. -/
def c4S : RSState Int String :=
  addRemoteObject (addRemoteObject emptyRS ("p") ("x") ("mx")) ("p") ("y") ("my")

/-- A peer with one registered local object. -/
def c5S : RSState Int String := (addLocalObject f32id emptyRS ("a") objA ("ia")).1

/-- A peer with one local and one shared object. -/
def c1wS : RSState Int String :=
  (addSharedObject f32id (addLocalObject f32id emptyRS ("a") objA ("ia")).1 ("su") shObj ("sh")).1

/-- The Snapshot held by `c1S` / `c1wS` for the shared object. -/
def c6c : TComponent Int :=
  { id := ("su"), matrix := [3], morphTargetInfluences := [7], sid := some ("sh") }

/-- An incoming SYNC record addressed to shared id sh. -/
def c6r : TComponent Int :=
  { id := ("su"), matrix := [9], morphTargetInfluences := [8], sid := some ("sh") }

/-- An incoming SYNC record that no registry resolves. -/
def c9r : TComponent Int :=
  { id := ("ghost"), matrix := [4], morphTargetInfluences := [], sid := none }

theorem lookupA_setA_self {α : Type} (l : List (String × α)) (k : String) (v : α) :
    lookupA (setA l k v) k = some v := by
  induction l with
  | nil => simp [setA, lookupA]
  | cons p rest ih =>
      by_cases h : p.1 = k
      · simp [setA, lookupA, h]
      · simp [setA, lookupA, h, ih]

theorem lookupA_setA_ne {α : Type} (l : List (String × α)) {k k' : String} (v : α)
    (h : k' ≠ k) : lookupA (setA l k v) k' = lookupA l k' := by
  have hk : k ≠ k' := Ne.symm h
  induction l with
  | nil => simp [setA, lookupA, hk]
  | cons p rest ih =>
      by_cases hp : p.1 = k
      · simp [setA, lookupA, hp, hk]
      · by_cases hp' : p.1 = k'
        · simp [setA, lookupA, hp, hp', h, hk]
        · simp [setA, lookupA, hp, hp', ih]

theorem setA_setA {α : Type} (l : List (String × α)) (k : String) (a b : α) :
    setA (setA l k a) k b = setA l k b := by
  induction l with
  | nil => simp [setA]
  | cons p rest ih =>
      by_cases h : p.1 = k
      · simp [setA, h]
      · simp [setA, h, ih]

theorem setA_eq_of_lookupA {α : Type} {l : List (String × α)} {k : String} {v : α}
    (h : lookupA l k = some v) : setA l k v = l := by
  induction l with
  | nil => simp [lookupA] at h
  | cons p rest ih =>
      obtain ⟨p1, p2⟩ := p
      by_cases hp : p1 = k
      · simp [lookupA, hp] at h
        subst hp
        subst h
        simp [setA]
      · simp [lookupA, hp] at h
        simp [setA, hp, ih h]

theorem setA_of_lookupA_none {α : Type} {l : List (String × α)} {k : String}
    (h : lookupA l k = none) (v : α) : setA l k v = l ++ [(k, v)] := by
  induction l with
  | nil => simp [setA]
  | cons p rest ih =>
      by_cases hp : p.1 = k
      · simp [lookupA, hp] at h
      · simp [lookupA, hp] at h
        simp [setA, hp, ih h]

theorem mem_of_lookupA {α : Type} {l : List (String × α)} {k : String} {v : α}
    (h : lookupA l k = some v) : (k, v) ∈ l := by
  induction l with
  | nil => simp [lookupA] at h
  | cons p rest ih =>
      obtain ⟨p1, p2⟩ := p
      by_cases hp : p1 = k
      · simp [lookupA, hp] at h
        subst hp
        subst h
        exact List.mem_cons_self _ _
      · simp [lookupA, hp] at h
        exact List.mem_cons_of_mem _ (ih h)

theorem mem_setA {α : Type} {l : List (String × α)} {k : String} {v : α} {p : String × α}
    (h : p ∈ setA l k v) : p ∈ l ∨ p = (k, v) := by
  induction l with
  | nil => simp [setA] at h; simp [h]
  | cons q rest ih =>
      by_cases hq : q.1 = k
      · simp [setA, hq] at h
        rcases h with h | h
        · right; simp [h]
        · left; exact List.mem_cons_of_mem _ h
      · simp [setA, hq] at h
        rcases h with h | h
        · left; simp [h]
        · rcases ih h with h' | h'
          · left; exact List.mem_cons_of_mem _ h'
          · right; exact h'

theorem keys_setA {α : Type} {l : List (String × α)} {k : String} {w : α}
    (h : lookupA l k = some w) (v : α) :
    (setA l k v).map Prod.fst = l.map Prod.fst := by
  induction l with
  | nil => simp [lookupA] at h
  | cons p rest ih =>
      by_cases hp : p.1 = k
      · simp [setA, hp]
      · simp [lookupA, hp] at h
        simp [setA, hp, ih h]

theorem lookupA_eq_none_of_not_mem {α : Type} {l : List (String × α)} {k : String}
    (h : k ∉ l.map Prod.fst) : lookupA l k = none := by
  induction l with
  | nil => simp [lookupA]
  | cons p rest ih =>
      rw [List.map_cons] at h
      have h1 : p.1 ≠ k := fun hh => h (hh ▸ List.mem_cons_self _ _)
      have h2 : k ∉ rest.map Prod.fst := fun hh => h (List.mem_cons_of_mem _ hh)
      simp [lookupA, h1, ih h2]

theorem not_mem_keys_of_lookupA_none {α : Type} {l : List (String × α)} {k : String}
    (h : lookupA l k = none) : k ∉ l.map Prod.fst := by
  induction l with
  | nil => simp
  | cons p rest ih =>
      by_cases hp : p.1 = k
      · simp [lookupA, hp] at h
      · simp [lookupA, hp] at h
        rw [List.map_cons]
        intro hmem
        rcases List.mem_cons.mp hmem with h1 | h1
        · exact hp h1.symm
        · exact ih h h1

theorem lookupA_delA_self {α : Type} {l : List (String × α)} {k : String}
    (hnd : (l.map Prod.fst).Nodup) : lookupA (delA l k) k = none := by
  induction l with
  | nil => simp [delA, lookupA]
  | cons p rest ih =>
      rw [List.map_cons] at hnd
      have hnd1 : p.1 ∉ rest.map Prod.fst := (List.nodup_cons.mp hnd).1
      have hnd2 : (rest.map Prod.fst).Nodup := (List.nodup_cons.mp hnd).2
      by_cases hp : p.1 = k
      · simp only [delA, if_pos hp]
        exact lookupA_eq_none_of_not_mem (hp ▸ hnd1)
      · simp only [delA, if_neg hp]
        simp [lookupA, hp, ih hnd2]

/-! ### Channel-level lemmas -/

section ChannelLemmas

variable {V : Type} [DecidableEq V] [Inhabited V]

theorem anyDiff_eq_false_of_map_eq (f32 : V → V) :
    ∀ {xs ys : List V}, xs.map f32 = ys.map f32 → anyDiff f32 xs ys = false := by
  intro xs
  induction xs with
  | nil => intro ys h; simp [anyDiff]
  | cons x xs ih =>
      intro ys h
      cases ys with
      | nil => simp at h
      | cons y ys =>
          simp only [List.map_cons, List.cons.injEq] at h
          simp [anyDiff, h.1, ih h.2]

theorem anyDiff_serializeList (f32 : V → V) (hf : ∀ x, f32 (f32 x) = f32 x) :
    ∀ (xs ys : List V), xs.length ≤ ys.length →
      anyDiff f32 (serializeList f32 xs ys) ys = false := by
  intro xs
  induction xs with
  | nil => intro ys _; simp [serializeList, anyDiff]
  | cons x xs ih =>
      intro ys h
      cases ys with
      | nil => simp at h
      | cons y ys =>
          simp only [List.length_cons, Nat.succ_le_succ_iff] at h
          simp [serializeList, anyDiff, hf y, ih ys h]

theorem checkUpdateC_eq_false_of_unchanged (f32 : V → V) {c : TComponent V}
    {o : ObjData V} (h : unchangedF32 f32 c o) : checkUpdateC f32 c o = false := by
  obtain ⟨h1, h2⟩ := h
  unfold checkUpdateC
  rw [anyDiff_eq_false_of_map_eq f32 h1]
  cases hm : o.morphs with
  | none => simp
  | some m => simp [anyDiff_eq_false_of_map_eq f32 (h2 m hm)]

theorem checkUpdateC_serializeC (f32 : V → V) (hf : ∀ x, f32 (f32 x) = f32 x)
    {c : TComponent V} {o : ObjData V} (hm : c.matrix.length ≤ o.matrix.length)
    (hmo : morphLenOK c o = true) :
    checkUpdateC f32 (serializeC f32 c o) o = false := by
  cases hx : o.morphs with
  | none =>
      simp [checkUpdateC, serializeC, hx, anyDiff_serializeList f32 hf _ _ hm]
  | some m =>
      unfold morphLenOK at hmo
      rw [hx] at hmo
      simp only [decide_eq_true_eq] at hmo
      simp [checkUpdateC, serializeC, hx, anyDiff_serializeList f32 hf _ _ hm,
        anyDiff_serializeList f32 hf _ _ hmo]

theorem length_matrix_deserializeO (o : ObjData V) (r : TComponent V) :
    (deserializeO o r).matrix.length = 16 := by
  simp [deserializeO, matrix4FromArray]

theorem morphLenOK_deserializeO {c : TComponent V} {o : ObjData V} (r : TComponent V)
    (h : morphLenOK c o = true) : morphLenOK c (deserializeO o r) = true := by
  cases hx : o.morphs with
  | none => simp [morphLenOK, deserializeO, hx]
  | some m =>
      unfold morphLenOK at h
      rw [hx] at h
      simp only [decide_eq_true_eq] at h
      by_cases hr : r.morphTargetInfluences.length > 0
      · simp only [morphLenOK, deserializeO, hx, if_pos hr, overwriteFront,
          List.length_append, List.length_drop, decide_eq_true_eq]
        omega
      · simp only [morphLenOK, deserializeO, hx, if_neg hr, decide_eq_true_eq]
        exact h

end ChannelLemmas

/-! ### List helper lemmas -/

theorem filter_ext {A : Type} (p q : A → Bool) :
    ∀ (l : List A), (∀ x ∈ l, p x = q x) → l.filter p = l.filter q := by
  intro l
  induction l with
  | nil => intro _; rfl
  | cons x xs ih =>
      intro h
      rw [List.filter_cons, List.filter_cons, h x (List.mem_cons_self _ _),
        ih fun y hy => h y (List.mem_cons_of_mem _ hy)]

theorem filter_eq_nil_of {A : Type} {p : A → Bool} :
    ∀ {l : List A}, (∀ x ∈ l, p x = false) → l.filter p = [] := by
  intro l
  induction l with
  | nil => intro _; rfl
  | cons x xs ih =>
      intro h
      rw [List.filter_cons, h x (List.mem_cons_self _ _)]
      simp only [Bool.false_eq_true, if_false]
      exact ih fun y hy => h y (List.mem_cons_of_mem _ hy)

theorem filter_eq_singleton_of {A : Type} {p : A → Bool} {a : A} :
    ∀ {l : List A}, l.Nodup → a ∈ l → (∀ x ∈ l, (p x = true ↔ x = a)) →
      l.filter p = [a] := by
  intro l
  induction l with
  | nil => intro _ ha _; simp at ha
  | cons x xs ih =>
      intro hnd ha h
      have hnd1 : x ∉ xs := (List.nodup_cons.mp hnd).1
      have hnd2 : xs.Nodup := (List.nodup_cons.mp hnd).2
      by_cases hax : x = a
      · subst hax
        have hpx : p x = true := (h x (List.mem_cons_self _ _)).mpr rfl
        have hnil : xs.filter p = [] := by
          apply filter_eq_nil_of
          intro y hy
          cases hpy : p y with
          | false => rfl
          | true =>
              exact absurd ((((h y (List.mem_cons_of_mem _ hy)).mp hpy)) ▸ hy) hnd1
        rw [List.filter_cons, hpx]
        simp [hnil]
      · have ha' : a ∈ xs := by
          rcases List.mem_cons.mp ha with h1 | h1
          · exact absurd h1.symm hax
          · exact h1
        have hpx : p x = false := by
          cases hpy : p x with
          | false => rfl
          | true => exact absurd ((h x (List.mem_cons_self _ _)).mp hpy) hax
        rw [List.filter_cons, hpx]
        simp only [Bool.false_eq_true, if_false]
        exact ih hnd2 ha' fun y hy => h y (List.mem_cons_of_mem _ hy)

/-! ### State-update helper lemmas -/

theorem isSome_lookupA_setA {α : Type} (l : List (String × α)) (k u : String) (v : α)
    (h : (lookupA l u).isSome = true) : (lookupA (setA l k v) u).isSome = true := by
  by_cases hu : u = k
  · subst hu
    rw [lookupA_setA_self]
    rfl
  · rw [lookupA_setA_ne l v hu]
    exact h

section SyncSpec

variable {V : Type} [DecidableEq V] [Inhabited V] {Info : Type}

theorem serializeC_id (f32 : V → V) (c : TComponent V) (o : ObjData V) :
    (serializeC f32 c o).id = c.id := rfl

theorem serializeS_eq (f32 : V → V) {s : RSState V Info} {u : String}
    {c : TComponent V} {o : ObjData V} (hc : lookupA s.transferComponents u = some c)
    (ho : lookupA s.heap u = some o) :
    serializeS f32 s u =
      some ({ s with transferComponents := setA s.transferComponents u (serializeC f32 c o) },
            serializeC f32 c o) := by
  simp [serializeS, hc, ho]

theorem checkUpdateS_eq (f32 : V → V) {s : RSState V Info} {u : String}
    {c : TComponent V} {o : ObjData V} (hc : lookupA s.transferComponents u = some c)
    (ho : lookupA s.heap u = some o) :
    checkUpdateS f32 s u = some (checkUpdateC f32 c o) := by
  simp [checkUpdateS, hc, ho]

theorem syncLoop_step_ser (f32 : V → V) (force : Bool) (s s1 s2 : RSState V Info)
    (u : String) (rest : List String) (c' : TComponent V) (recs : List (TComponent V))
    (hgo : (if force then some true else checkUpdateS f32 s u) = some true)
    (hser : serializeS f32 s u = some (s1, c'))
    (hrec : syncLoop f32 force s1 rest = some (s2, recs)) :
    syncLoop f32 force s (u :: rest) = some (s2, c' :: recs) := by
  rw [syncLoop, hgo, hser]
  simp only [hrec]
  rw [if_pos trivial]

theorem syncLoop_step_skip (f32 : V → V) (force : Bool) (s : RSState V Info)
    (u : String) (rest : List String)
    (hgo : (if force then some true else checkUpdateS f32 s u) = some false) :
    syncLoop f32 force s (u :: rest) = syncLoop f32 force s rest := by
  rw [syncLoop, hgo]
  simp only [Bool.false_eq_true, if_false]

theorem filter_true_of {A : Type} (p : A → Bool) :
    ∀ (l : List A), (∀ x ∈ l, p x = true) → l.filter p = l := by
  intro l
  induction l with
  | nil => intro _; rfl
  | cons x xs ih =>
      intro h
      rw [List.filter_cons, h x (List.mem_cons_self _ _), if_pos rfl,
        ih fun y hy => h y (List.mem_cons_of_mem _ hy)]

/-- The core correctness of the `sync` scan: it succeeds on well-formed
registries, only the component table changes, and the emitted record ids are
exactly the scanned uuids that are forced or report an update (evaluated
against the pre-scan state). -/
theorem syncLoop_spec (f32 : V → V) (force : Bool) :
    ∀ (uuids : List String) (s : RSState V Info),
      compsOK s uuids → idsOK s → uuids.Nodup →
      ∃ tc recs,
        syncLoop f32 force s uuids = some ({ s with transferComponents := tc }, recs) ∧
        recs.map TComponent.id =
          uuids.filter fun u => force || (checkUpdateS f32 s u).getD false := by
  intro uuids
  induction uuids with
  | nil =>
      intro s _ _ _
      exact ⟨s.transferComponents, [], rfl, rfl⟩
  | cons u rest ih =>
      intro s h1 h2 h3
      obtain ⟨hcs, hhs⟩ := h1 u (List.mem_cons_self _ _)
      obtain ⟨c, hc⟩ := Option.isSome_iff_exists.mp hcs
      obtain ⟨o, ho⟩ := Option.isSome_iff_exists.mp hhs
      have hcu : checkUpdateS f32 s u = some (checkUpdateC f32 c o) :=
        checkUpdateS_eq f32 hc ho
      have hcid : c.id = u := h2 (u, c) (mem_of_lookupA hc)
      have hnd1 : u ∉ rest := (List.nodup_cons.mp h3).1
      have hnd2 : rest.Nodup := (List.nodup_cons.mp h3).2
      have hser := serializeS_eq f32 hc ho
      set c' := serializeC f32 c o with hcdef
      set s1 : RSState V Info :=
        { s with transferComponents := setA s.transferComponents u c' } with hs1def
      have h1' : compsOK s1 rest := by
        intro y hy
        obtain ⟨hy1, hy2⟩ := h1 y (List.mem_cons_of_mem _ hy)
        exact ⟨isSome_lookupA_setA _ _ _ _ hy1, hy2⟩
      have h2' : idsOK s1 := by
        intro p hp
        rcases mem_setA hp with hmem | hmem
        · exact h2 p hmem
        · rw [hmem]
          exact hcid
      have hcongr1 : ∀ y ∈ rest, checkUpdateS f32 s1 y = checkUpdateS f32 s y := by
        intro y hy
        have hyne : y ≠ u := fun hh => hnd1 (hh ▸ hy)
        unfold checkUpdateS
        rw [show s1.transferComponents = setA s.transferComponents u c' from rfl,
          lookupA_setA_ne _ _ hyne]
      cases force with
      | true =>
          obtain ⟨tc, recs, hrec, hids⟩ := ih s1 h1' h2' hnd2
          refine ⟨tc, c' :: recs, ?_, ?_⟩
          · exact syncLoop_step_ser f32 true s s1 _ u rest c' recs rfl hser hrec
          · have hl : recs.map TComponent.id = rest := by
              rw [hids]
              apply filter_true_of
              intro y hy
              simp
            have hr : (u :: rest).filter
                (fun y => true || (checkUpdateS f32 s y).getD false) = u :: rest := by
              apply filter_true_of
              intro y hy
              simp
            rw [List.map_cons, hl, hr, show c'.id = u from hcid]
      | false =>
          cases hb : checkUpdateC f32 c o with
          | true =>
              obtain ⟨tc, recs, hrec, hids⟩ := ih s1 h1' h2' hnd2
              refine ⟨tc, c' :: recs, ?_, ?_⟩
              · exact syncLoop_step_ser f32 false s s1 _ u rest c' recs
                  (by simp [hcu, hb]) hser hrec
              · have hfeq : rest.filter (fun y => false || (checkUpdateS f32 s1 y).getD false)
                    = rest.filter (fun y => false || (checkUpdateS f32 s y).getD false) := by
                  apply filter_ext
                  intro y hy
                  rw [hcongr1 y hy]
                rw [List.map_cons, hids, hfeq, List.filter_cons]
                simp only [hcu, Option.getD_some, Bool.false_or]
                rw [if_pos hb, show c'.id = u from hcid]
          | false =>
              have h1r : compsOK s rest := fun y hy => h1 y (List.mem_cons_of_mem _ hy)
              obtain ⟨tc, recs, hrec, hids⟩ := ih s h1r h2 hnd2
              refine ⟨tc, recs, ?_, ?_⟩
              · exact (syncLoop_step_skip f32 false s u rest (by simp [hcu, hb])).trans hrec
              · rw [hids, List.filter_cons]
                simp only [hcu, Option.getD_some, Bool.false_or]
                rw [if_neg (by simp [hb])]

end SyncSpec

/-! ### Disconnect cleanup -/

section DisconnectSpec

variable {V : Type} [DecidableEq V] [Inhabited V] {Info : Type}

theorem removeRemoteObject_found (s : RSState V Info) (P q1 q2 : String)
    (rest : List (String × String))
    (h : lookupA s.remoteObjectTable P = some ((q1, q2) :: rest)) :
    removeRemoteObject s P q1 =
      ({ s with remoteObjectTable := setA s.remoteObjectTable P rest }, [(P, q1, q2)]) := by
  simp [removeRemoteObject, h, lookupA, delA]

theorem disconnectLoop_spec (P : String) :
    ∀ (objects : List (String × String)) (s : RSState V Info),
      lookupA s.remoteObjectTable P = some objects →
      (objects.map Prod.fst).Nodup →
      disconnectLoop P s (objects.map Prod.fst) =
        ({ s with remoteObjectTable := setA s.remoteObjectTable P [] },
         objects.map fun q => (P, q.1, q.2)) := by
  intro objects
  induction objects with
  | nil =>
      intro s h _
      simp only [List.map_nil, disconnectLoop]
      rw [show (setA s.remoteObjectTable P ([] : List (String × String)))
          = s.remoteObjectTable from setA_eq_of_lookupA h]
  | cons q rest ih =>
      intro s h hnd
      obtain ⟨q1, q2⟩ := q
      rw [List.map_cons] at hnd ⊢
      have hnd1 : q1 ∉ rest.map Prod.fst := (List.nodup_cons.mp hnd).1
      have hnd2 : (rest.map Prod.fst).Nodup := (List.nodup_cons.mp hnd).2
      have hrm := removeRemoteObject_found s P q1 q2 rest h
      set s' : RSState V Info :=
        { s with remoteObjectTable := setA s.remoteObjectTable P rest } with hs'
      have hlook : lookupA s'.remoteObjectTable P = some rest :=
        lookupA_setA_self s.remoteObjectTable P rest
      have ih' := ih s' hlook hnd2
      rw [disconnectLoop]
      simp only [hrm, ih', setA_setA, List.map_cons, List.singleton_append]

end DisconnectSpec

/-! ### Claim theorems -/

section Claims

variable {V : Type} [DecidableEq V] [Inhabited V] {Info : Type}

/-- C7: for every shared id already bound to some object, a subsequent
`addSharedObject` with that id is rejected with a warning-level signal
(the Bool result) and changes no state: the binding, the shared-object
sequence, and the component table are all untouched (the whole state is
returned unchanged), so no Snapshot is created for the new object. -/
theorem c7_shared_id_conflict_rejected (f32 : V → V) (s : RSState V Info)
    (sid u1 uN : String) (oN : ObjData V)
    (h : lookupA s.sharedObjectTable sid = some u1) :
    addSharedObject f32 s uN oN sid = (s, true) := by
  simp [addSharedObject, h]

theorem c7_witness :
    lookupA c1S.sharedObjectTable ("sh") = some ("su") ∧
    addSharedObject f32id c1S ("other") objB ("sh") = (c1S, true) :=
  ⟨by decide, c7_shared_id_conflict_rejected f32id c1S ("sh") ("su") ("other") objB (by decide)⟩

/-- C9: an incoming SYNC record whose target cannot be resolved (unknown
shared id, sender without remote table, or entity id absent from the sender's
remote table) is processed as a silent no-op: the state is returned
unchanged and no error path (`none`) is taken. -/
theorem c9_unknown_target_skipped (f32 : V → V) (s : RSState V Info) (destId : String)
    (r : TComponent V) (h : unresolvableSyncRecord s destId r = true) :
    applySyncRecord f32 s destId r = some s := by
  cases hs : r.sid with
  | some sharedId =>
      have h' : lookupA s.sharedObjectTable sharedId = none := by
        unfold unresolvableSyncRecord at h
        rw [hs] at h
        simpa using h
      simp [applySyncRecord, hs, h']
  | none =>
      cases ht : lookupA s.remoteObjectTable destId with
      | none => simp [applySyncRecord, hs, ht]
      | some objs =>
          have h' : lookupA objs r.id = none := by
            unfold unresolvableSyncRecord at h
            rw [hs, ht] at h
            simpa using h
          simp [applySyncRecord, hs, ht, h']

theorem c9_witness :
    unresolvableSyncRecord emptyRS ("p") c9r = true ∧
    applySyncRecord f32id emptyRS ("p") c9r = some emptyRS :=
  ⟨by decide, c9_unknown_target_skipped f32id emptyRS ("p") c9r (by decide)⟩

/-- C10: calling `addRemoteObject` for a (peer id, object id) pair that is
already registered with mirror m1 is a no-op: the state (hence the stored
mirror m1) is unchanged and the new mirror is not stored. -/
theorem c10_addRemoteObject_idempotent (s : RSState V Info)
    (P oid m1 m2 : String) (objs : List (String × String))
    (h1 : lookupA s.remoteObjectTable P = some objs)
    (h2 : lookupA objs oid = some m1) :
    addRemoteObject s P oid m2 = s := by
  simp [addRemoteObject, h1, h2]

theorem c10_witness :
    (lookupA c2S.remoteObjectTable ("p") = some [(("x"), ("mx"))] ∧
      lookupA [(("x"), ("mx"))] ("x") = some ("mx")) ∧
    addRemoteObject c2S ("p") ("x") ("m2") = c2S :=
  ⟨by decide,
   c10_addRemoteObject_idempotent c2S ("p") ("x") ("mx") ("m2") [(("x"), ("mx"))]
     (by decide) (by decide)⟩

/-- C4: a disconnect of peer P with a registered remote table emits exactly
one 'remove' notification per mirrored entity, in registration order, and
afterwards P's remote-entity table is entirely removed (its lookup yields
nothing), so no remote entry registered under P survives. -/
theorem c4_disconnect_cleanup (s : RSState V Info) (P : String)
    (objs : List (String × String))
    (h : lookupA s.remoteObjectTable P = some objs)
    (hnd : (objs.map Prod.fst).Nodup)
    (hndT : (s.remoteObjectTable.map Prod.fst).Nodup) :
    handleDisconnect s P =
      ({ s with remoteObjectTable := delA (setA s.remoteObjectTable P []) P },
       objs.map fun q => (P, q.1, q.2)) ∧
    lookupA (delA (setA s.remoteObjectTable P []) P) P = none := by
  constructor
  · simp only [handleDisconnect, h]
    rw [disconnectLoop_spec P objs s h hnd]
  · have hkeys : (setA s.remoteObjectTable P ([] : List (String × String))).map Prod.fst
        = s.remoteObjectTable.map Prod.fst := keys_setA h []
    exact lookupA_delA_self (hkeys ▸ hndT)

theorem c4_witness :
    (lookupA c4S.remoteObjectTable ("p") = some [(("x"), ("mx")), (("y"), ("my"))] ∧
      (([(("x"), ("mx")), (("y"), ("my"))] : List (String × String)).map Prod.fst).Nodup ∧
      (c4S.remoteObjectTable.map Prod.fst).Nodup) ∧
    (handleDisconnect c4S ("p") =
      ({ c4S with remoteObjectTable := delA (setA c4S.remoteObjectTable ("p") []) ("p") },
       ([(("x"), ("mx")), (("y"), ("my"))] : List (String × String)).map
         fun q => (("p"), q.1, q.2)) ∧
     lookupA (delA (setA c4S.remoteObjectTable ("p") []) ("p")) ("p") = none) :=
  ⟨⟨by decide, by decide, by decide⟩,
   c4_disconnect_cleanup c4S ("p") [(("x"), ("mx")), (("y"), ("my"))]
     (by decide) (by decide) (by decide)⟩

end Claims

section Claims2

variable {V : Type} [DecidableEq V] [Inhabited V] {Info : Type}

/-- C8: registering the same entity id twice with `addLocalObject` has the
effect of a single registration: the second call is a silent no-op (state
unchanged and no message), afterwards exactly one Snapshot exists for the id
and it appears exactly once in the local-object sequence, and the single ADD
broadcast is the one issued by the first call, iff a connection existed. -/
theorem c8_addLocalObject_idempotent (f32 : V → V) (s : RSState V Info)
    (u : String) (o : ObjData V) (info : Info)
    (h1 : u ∉ s.localObjectTable) (h2 : u ∉ s.localObjects)
    (h3 : lookupA s.transferComponents u = none) :
    addLocalObject f32 (addLocalObject f32 s u o info).1 u o info
        = ((addLocalObject f32 s u o info).1, none) ∧
    ((addLocalObject f32 s u o info).1.transferComponents.map Prod.fst).count u = 1 ∧
    (addLocalObject f32 s u o info).1.localObjects.count u = 1 ∧
    (addLocalObject f32 s u o info).2
      = if 0 < s.connections then some (Message.addM s.id none [(u, some info)]) else none := by
  have hfst : addLocalObject f32 s u o info = ({ s with
      heap := setA s.heap u o
      localObjectTable := s.localObjectTable ++ [u]
      localObjects := s.localObjects ++ [u]
      localObjectInfos := setA s.localObjectInfos u info
      transferComponents := setA s.transferComponents u (createTransferComponent f32 u o) },
    if 0 < s.connections then some (Message.addM s.id none [(u, some info)]) else none) := by
    rw [addLocalObject, if_neg h1]
  refine ⟨?_, ?_, ?_, ?_⟩
  · rw [hfst]
    rw [addLocalObject, if_pos (by simp)]
  · rw [hfst]
    show ((setA s.transferComponents u (createTransferComponent f32 u o)).map Prod.fst).count u = 1
    rw [setA_of_lookupA_none h3, List.map_append, List.count_append]
    rw [List.count_eq_zero.mpr (not_mem_keys_of_lookupA_none h3)]
    simp
  · rw [hfst]
    show (s.localObjects ++ [u]).count u = 1
    rw [List.count_append, List.count_eq_zero.mpr h2]
    simp
  · rw [hfst]

theorem c8_witness :
    ((("a") ∉ emptyRS.localObjectTable) ∧ (("a") ∉ emptyRS.localObjects) ∧
      lookupA emptyRS.transferComponents ("a") = none) ∧
    (addLocalObject f32id (addLocalObject f32id emptyRS ("a") objA ("ia")).1 ("a") objA ("ia")
        = ((addLocalObject f32id emptyRS ("a") objA ("ia")).1, none) ∧
      ((addLocalObject f32id emptyRS ("a") objA ("ia")).1.transferComponents.map
        Prod.fst).count ("a") = 1 ∧
      (addLocalObject f32id emptyRS ("a") objA ("ia")).1.localObjects.count ("a") = 1 ∧
      (addLocalObject f32id emptyRS ("a") objA ("ia")).2
        = if 0 < emptyRS.connections then
            some (Message.addM emptyRS.id none [(("a"), some ("ia"))]) else none) :=
  ⟨⟨by decide, by decide, by decide⟩,
   c8_addLocalObject_idempotent f32id emptyRS ("a") objA ("ia")
     (by decide) (by decide) (by decide)⟩

/-- C5: on a `sync(force := false)` tick over well-formed registries, the
emitted record ids are exactly the registered local-then-shared entities whose
`checkUpdate` reports a 32-bit-precision difference; consequently an entity
whose channels are all unchanged at float32 precision produces no record,
when exactly one entity reports a change the record list is exactly that
entity, and when no record is produced no message is broadcast (the message
is `none`). -/
theorem c5_delta_correctness (f32 : V → V) (s : RSState V Info)
    (hco : compsOK s (s.localObjects ++ s.sharedObjects)) (hid : idsOK s)
    (hnd : (s.localObjects ++ s.sharedObjects).Nodup) :
    ∃ s' recs,
      sync f32 s false false = some (s',
        if 0 < recs.length then some (Message.syncM s.id none recs) else none) ∧
      recs.map TComponent.id = (s.localObjects ++ s.sharedObjects).filter
        (fun u => (checkUpdateS f32 s u).getD false) ∧
      (∀ u c o, lookupA s.transferComponents u = some c → lookupA s.heap u = some o →
        unchangedF32 f32 c o → u ∉ recs.map TComponent.id) ∧
      (∀ u₀ ∈ s.localObjects ++ s.sharedObjects,
        (∀ u ∈ s.localObjects ++ s.sharedObjects,
          ((checkUpdateS f32 s u).getD false = true ↔ u = u₀)) →
        recs.map TComponent.id = [u₀]) := by
  obtain ⟨tc, recs, hloop, hids⟩ :=
    syncLoop_spec f32 false (s.localObjects ++ s.sharedObjects) s hco hid hnd
  have hids' : recs.map TComponent.id = (s.localObjects ++ s.sharedObjects).filter
      (fun u => (checkUpdateS f32 s u).getD false) := by
    rw [hids]
    apply filter_ext
    intro y _
    rw [Bool.false_or]
  refine ⟨{ s with transferComponents := tc }, recs, ?_, hids', ?_, ?_⟩
  · unfold sync
    simp only [Bool.false_eq_true, if_false, hloop]
  · intro u c o hc ho hunch
    rw [hids']
    intro hmem
    have hpy := List.of_mem_filter hmem
    rw [checkUpdateS_eq f32 hc ho] at hpy
    rw [checkUpdateC_eq_false_of_unchanged f32 hunch] at hpy
    simp at hpy
  · intro u₀ hmem hiff
    rw [hids']
    exact filter_eq_singleton_of hnd hmem hiff

theorem c5_witness :
    (compsOK c5S (c5S.localObjects ++ c5S.sharedObjects) ∧ idsOK c5S ∧
      (c5S.localObjects ++ c5S.sharedObjects).Nodup) ∧
    (∃ s' recs,
      sync f32id c5S false false = some (s',
        if 0 < recs.length then some (Message.syncM c5S.id none recs) else none) ∧
      recs.map TComponent.id = (c5S.localObjects ++ c5S.sharedObjects).filter
        (fun u => (checkUpdateS f32id c5S u).getD false) ∧
      (∀ u c o, lookupA c5S.transferComponents u = some c → lookupA c5S.heap u = some o →
        unchangedF32 f32id c o → u ∉ recs.map TComponent.id) ∧
      (∀ u₀ ∈ c5S.localObjects ++ c5S.sharedObjects,
        (∀ u ∈ c5S.localObjects ++ c5S.sharedObjects,
          ((checkUpdateS f32id c5S u).getD false = true ↔ u = u₀)) →
        recs.map TComponent.id = [u₀])) :=
  ⟨⟨by decide, by decide, by decide⟩,
   c5_delta_correctness f32id c5S (by decide) (by decide) (by decide)⟩

/-- C2: the claim says the REMOVE handler deletes each present record and
notifies the application without throwing; in the source (line 552) the loop
body reads the undefined identifier `objests` (and would then call the
nonexistent method `removeRemoveObject`), so on this concrete state - peer p
mirrored with entity x registered in p's remote table - the handler throws a
ReferenceError before processing the record, instead of removing it. -/
theorem c2_remove_handler_throws :
    lookupA c2S.remoteObjectTable ("p") = some [(("x"), ("mx"))] ∧
    handleRemoveRequest c2S ("p") [("x")] = Except.error objestsErrorMsg := by
  constructor
  · decide
  · rfl

/-- C3: the claim says `removeLocalObject` leaves both the lookup table and
the ordered sequence equal to the prior collection minus the removed object.
On this concrete state (local objects a then b, one connection) removing a
does delete a's Snapshot, does drop a from the lookup table, and does
broadcast a REMOVE - but the sequence-compaction routine
`removeObjectFromArray` is inverted (it keeps the matches), so the ordered
sequence ends as [a] instead of the claimed [b]. -/
theorem c3_remove_local_sequence_bug :
    (removeLocalObject c3S ("a")).1.localObjectTable = [("b")] ∧
    lookupA (removeLocalObject c3S ("a")).1.transferComponents ("a") = none ∧
    (removeLocalObject c3S ("a")).2 = some (Message.removeM ("me") none [("a")]) ∧
    (removeLocalObject c3S ("a")).1.localObjects = [("a")] := by
  refine ⟨?_, ?_, ?_, ?_⟩ <;> decide

end Claims2

section Claims3

variable {V : Type} [DecidableEq V] [Inhabited V] {Info : Type}

/-- C1 (counterexample): the claim says that when this side is the initiator
of the connection (the 'connect' event has fromRemote = false, i.e. the
remote peer did not send the connection request), the forced SYNC broadcast
covers local plus shared entities.  On `c1S` - no local objects, one shared
object su - the claim therefore requires a SYNC message carrying su; the code
runs `sync(true, !fromRemote) = sync(true, true)`, scanning local objects
only, so the connect handler emits just the (empty) ADD unicast and no SYNC
message at all. -/
theorem c1_counterexample :
    c1S.sharedObjects = [("su")] ∧
    onConnect f32id c1S ("peer") false
      = some (c1S, [Message.addM ("me") (some ("peer")) []]) := by
  constructor
  · decide
  · rfl

/-- C1 (amended): on every newly established connection to peer p the engine
unicasts one ADD message listing every currently-registered local entity to
p, followed by a forced SYNC broadcast (emitted only when it has records)
whose scope is local entities only when this side is the *initiator* of the
connection (fromRemote = false), and local plus shared entities when this
side is the *non-initiator* (fromRemote = true). -/
theorem c1_connect_catalog_amended (f32 : V → V) (s : RSState V Info) (p : String)
    (fromRemote : Bool)
    (hco : compsOK s (s.localObjects ++ s.sharedObjects)) (hid : idsOK s)
    (hnd : (s.localObjects ++ s.sharedObjects).Nodup) :
    ∃ s' recs,
      onConnect f32 s p fromRemote = some (s',
        Message.addM s.id (some p)
            (s.localObjects.map fun u => (u, lookupA s.localObjectInfos u))
          :: (if 0 < recs.length then [Message.syncM s.id none recs] else [])) ∧
      recs.map TComponent.id
        = s.localObjects ++ (if fromRemote then s.sharedObjects else []) := by
  cases fromRemote with
  | true =>
      obtain ⟨tc, recs, hloop, hids⟩ :=
        syncLoop_spec f32 true (s.localObjects ++ s.sharedObjects) s hco hid hnd
      refine ⟨{ s with transferComponents := tc }, recs, ?_, ?_⟩
      · unfold onConnect sync
        rw [if_neg (show ¬((!true) = true) from Bool.false_ne_true)]
        simp only [hloop]
        by_cases hlen : 0 < recs.length
        · simp [hlen, sendAddObjectsRequest]
        · simp [hlen, sendAddObjectsRequest]
      · rw [hids, filter_true_of _ _ (fun y _ => by simp), if_pos rfl]
  | false =>
      have hco' : compsOK s s.localObjects :=
        fun y hy => hco y (List.mem_append_left _ hy)
      have hnd' : s.localObjects.Nodup := hnd.of_append_left
      obtain ⟨tc, recs, hloop, hids⟩ := syncLoop_spec f32 true s.localObjects s hco' hid hnd'
      refine ⟨{ s with transferComponents := tc }, recs, ?_, ?_⟩
      · unfold onConnect sync
        rw [if_pos (show (!false) = true from rfl), List.append_nil]
        simp only [hloop]
        by_cases hlen : 0 < recs.length
        · simp [hlen, sendAddObjectsRequest]
        · simp [hlen, sendAddObjectsRequest]
      · rw [hids, filter_true_of _ _ (fun y _ => by simp), if_neg Bool.false_ne_true,
          List.append_nil]

theorem c1_witness :
    (compsOK c1wS (c1wS.localObjects ++ c1wS.sharedObjects) ∧ idsOK c1wS ∧
      (c1wS.localObjects ++ c1wS.sharedObjects).Nodup) ∧
    (∃ s' recs,
      onConnect f32id c1wS ("peer") true = some (s',
        Message.addM c1wS.id (some ("peer"))
            (c1wS.localObjects.map fun u => (u, lookupA c1wS.localObjectInfos u))
          :: (if 0 < recs.length then [Message.syncM c1wS.id none recs] else [])) ∧
      recs.map TComponent.id
        = c1wS.localObjects ++ (if (true : Bool) then c1wS.sharedObjects else [])) :=
  ⟨⟨by decide, by decide, by decide⟩,
   c1_connect_catalog_amended f32id c1wS ("peer") true (by decide) (by decide) (by decide)⟩

/-- C6: applying an incoming SYNC record addressed to a registered shared
entity (resolution through the shared table succeeds) rewrites both the live
object and, via the immediate re-serialization, its Snapshot, so the entity
reports no update afterwards and an immediate `sync(force := false)` with no
intervening mutation emits no record for it (echo suppression).  The float32
rounding is assumed idempotent, as real float32 rounding is. -/
theorem c6_echo_suppression (f32 : V → V) (hf : ∀ x, f32 (f32 x) = f32 x)
    (s : RSState V Info) (destId sharedId u : String) (r c : TComponent V) (o : ObjData V)
    (hr : r.sid = some sharedId)
    (hs : lookupA s.sharedObjectTable sharedId = some u)
    (hc : lookupA s.transferComponents u = some c)
    (ho : lookupA s.heap u = some o)
    (hm : c.matrix.length ≤ 16)
    (hmo : morphLenOK c o = true)
    (hco : compsOK s (s.localObjects ++ s.sharedObjects)) (hid : idsOK s)
    (hnd : (s.localObjects ++ s.sharedObjects).Nodup) :
    ∃ s', applySyncRecord f32 s destId r = some s' ∧
      checkUpdateS f32 s' u = some false ∧
      ∃ s'' recs,
        sync f32 s' false false = some (s'',
          if 0 < recs.length then some (Message.syncM (RSState.id s') none recs) else none) ∧
        u ∉ recs.map TComponent.id := by
  set o' := deserializeO o r with hodef
  set s1 : RSState V Info := { s with heap := setA s.heap u o' } with hs1def
  have hc1 : lookupA s1.transferComponents u = some c := hc
  have ho1 : lookupA s1.heap u = some o' := lookupA_setA_self _ _ _
  have hser := serializeS_eq f32 hc1 ho1
  set c' := serializeC f32 c o' with hcdef
  set s2 : RSState V Info :=
    { s1 with transferComponents := setA s1.transferComponents u c' } with hs2def
  have happ : applySyncRecord f32 s destId r = some s2 := by
    simp only [applySyncRecord, hr, hs, ho, hser]
  have hmlen : c.matrix.length ≤ o'.matrix.length := by
    rw [hodef, length_matrix_deserializeO]
    exact hm
  have hmo' : morphLenOK c o' = true := by
    rw [hodef]
    exact morphLenOK_deserializeO r hmo
  have hc2 : lookupA s2.transferComponents u = some c' := lookupA_setA_self _ _ _
  have ho2 : lookupA s2.heap u = some o' := ho1
  have hcu2 : checkUpdateS f32 s2 u = some false := by
    rw [checkUpdateS_eq f32 hc2 ho2, hcdef,
      checkUpdateC_serializeC f32 hf hmlen hmo']
  have hco2 : compsOK s2 (s2.localObjects ++ s2.sharedObjects) := by
    intro y hy
    obtain ⟨hy1, hy2⟩ := hco y hy
    exact ⟨isSome_lookupA_setA _ _ _ _ hy1, isSome_lookupA_setA _ _ _ _ hy2⟩
  have hid2 : idsOK s2 := by
    intro q hq
    rcases mem_setA hq with hmem | hmem
    · exact hid q hmem
    · rw [hmem]
      exact hid (u, c) (mem_of_lookupA hc)
  obtain ⟨tc, recs, hloop, hids⟩ :=
    syncLoop_spec f32 false (s2.localObjects ++ s2.sharedObjects) s2 hco2 hid2 hnd
  refine ⟨s2, happ, hcu2, { s2 with transferComponents := tc }, recs, ?_, ?_⟩
  · unfold sync
    simp only [Bool.false_eq_true, if_false, hloop]
  · rw [hids]
    intro hmem
    have hpy := List.of_mem_filter hmem
    simp [hcu2] at hpy

theorem c6_witness :
    (c6r.sid = some ("sh") ∧ lookupA c1S.sharedObjectTable ("sh") = some ("su") ∧
      lookupA c1S.transferComponents ("su") = some c6c ∧
      lookupA c1S.heap ("su") = some shObj ∧
      c6c.matrix.length ≤ 16 ∧ morphLenOK c6c shObj = true ∧
      compsOK c1S (c1S.localObjects ++ c1S.sharedObjects) ∧ idsOK c1S ∧
      (c1S.localObjects ++ c1S.sharedObjects).Nodup) ∧
    (∃ s', applySyncRecord f32id c1S ("peer") c6r = some s' ∧
      checkUpdateS f32id s' ("su") = some false ∧
      ∃ s'' recs,
        sync f32id s' false false = some (s'',
          if 0 < recs.length then some (Message.syncM (RSState.id s') none recs) else none) ∧
        ("su") ∉ recs.map TComponent.id) :=
  ⟨⟨by decide, by decide, by decide, by decide, by decide, by decide, by decide, by decide,
    by decide⟩,
   c6_echo_suppression f32id (fun _ => rfl) c1S ("peer") ("sh") ("su") c6r c6c shObj
     (by decide) (by decide) (by decide) (by decide) (by decide) (by decide)
     (by decide) (by decide) (by decide)⟩

end Claims3

end ThreeNetwork
